import Mathlib

/-!
Verification of the drpcstream Stream core (src/drpc/drpcstream/stream.go).

The Stream operations are embedded as pure state transformers over an explicit
state record.  The collaborators that are not part of the source tree are
modelled from the specification: drpcutil.Signal (a one-shot error latch,
spec section 4.1), drpcwire.Split (a deterministic partition of the payload
into one or more packets sharing a packet identifier, spec section 6), and
drpcutil.Buffer (the buffered writer; modelled as an infallible packet sink,
since no claim under consideration concerns writer failures - the poll and
signal logic, which every claim is about, is independent of them).
-/

namespace Drpcstream

/-- Width of a Go uint64: the message counter arithmetic wraps modulo this. -/
def W : Nat := 2 ^ 64

/-- Errors recorded in signals or returned by stream operations.  The concrete
drpc error values are abstracted into an enumeration since the code only
constructs and compares them. -/
inductive Err where
  | sendAfterCloseSend
  | streamTerminated
  | streamClosed
  | canceled
  | eofErr
  | other (n : Nat)
deriving DecidableEq, Repr

/-- Modelled from the spec: a wire Error frame carries the UTF-8 text of the
error (spec section 6); the bytes are abstracted into a one-element code. -/
def errData (e : Err) : List Nat :=
  match e with
  | .sendAfterCloseSend => [0]
  | .streamTerminated => [1]
  | .streamClosed => [2]
  | .canceled => [3]
  | .eofErr => [4]
  | .other n => [5 + n]

/-- Modelled from the spec: drpcutil.Signal.Set (spec section 4.1), the
one-shot latch: it records the error iff none is recorded yet and is a
no-op on every later call. -/
def sigSet (s : Option Err) (e : Err) : Option Err :=
  match s with
  | none => some e
  | some x => some x

/-- drpcwire.PayloadKind: the four wire payload kinds. -/
inductive PayloadKind where
  | message
  | error
  | cancel
  | closeSend
deriving DecidableEq, Repr

/-- drpcwire.PacketID: the (stream id, message id) pair. -/
structure PacketID where
  streamID : Nat
  messageID : Nat
deriving DecidableEq, Repr

/-- drpcwire.Packet: identifier, payload kind and data. -/
structure Packet where
  pid : PacketID
  kind : PayloadKind
  data : List Nat
deriving DecidableEq, Repr

/-- Which Stream operation performed a frame emission (one drpcwire.Split
invocation that reached the writer). -/
inductive Origin where
  | rawSendO
  | closeSendO
  | closeO
  | rawErrorO
  | rawCancelO
deriving DecidableEq, Repr

/-- Bookkeeping record of one frame emission: its packet identifier, payload
kind, and the operation that produced it. -/
structure FrameMeta where
  pid : PacketID
  kind : PayloadKind
  origin : Origin
deriving DecidableEq, Repr

/-- drpcstream.Stream.  messageID is the outbound sequence counter, the four
signals are the one-shot latches of the source (recvSig is carried but, as in
the source, never consulted by any operation here).  wire is the ordered log
of packets handed to the buffered writer, frames the log of Split invocations
that emitted.  queue/queueClosed model the receive channel fed by the
demultiplexer. -/
structure Stream where
  streamID : Nat
  messageID : Nat
  sig : Option Err
  sendSig : Option Err
  recvSig : Option Err
  termSig : Option Err
  wire : List Packet
  frames : List FrameMeta
  queue : List Packet
  queueClosed : Bool
deriving DecidableEq, Repr

/-- drpcstream.New: fresh stream, counter zero, all signals unset, empty
queue. -/
def Stream.new (sid : Nat) : Stream :=
  { streamID := sid
    messageID := 0
    sig := none
    sendSig := none
    recvSig := none
    termSig := none
    wire := []
    frames := []
    queue := []
    queueClosed := false }

/-- Stream.pollSend: the three-tier deny policy.  First the general-error
signal, then the terminal signal, then the send-closed signal (the boolean
marks the send-closed case as already-closed); otherwise allow. -/
def Stream.pollSend (s : Stream) : Option Err × Bool :=
  match s.sig with
  | some e => (some e, false)
  | none =>
    match s.termSig with
    | some e => (some e, false)
    | none =>
      match s.sendSig with
      | some e => (some e, true)
      | none => (none, false)

/-- Stream.nextPid: atomically increment the message counter (uint64
wraparound made explicit) and pair the new value with the stream id. -/
def Stream.nextPid (s : Stream) : PacketID × Stream :=
  let mid := (s.messageID + 1) % W
  (⟨s.streamID, mid⟩, { s with messageID := mid })

/-- Modelled from the spec: the partition drpcwire.Split applies to the
payload (spec section 6: one or more packets, all tagged with the same packet
identifier and kind, emitted in order).  The partition function itself is kept
abstract. -/
abbrev Chunker := List Nat → List (List Nat)

/-- A partition function consistent with the spec of drpcwire.Split: it
produces at least one chunk, the chunks concatenate back to the data, and
empty data yields exactly one empty packet. -/
def ValidChunker (C : Chunker) : Prop :=
  ∀ d, C d ≠ [] ∧ (C d).flatten = d ∧ (d = [] → C d = [[]])

/-- The trivial partition: one packet per payload. -/
def oneChunk : Chunker := fun d => [d]

/-- A partition that splits any payload of length at least two into two
packets (such splits are within the Split contract, which allows one or more
packets per payload). -/
def splitTwo : Chunker := fun d => if 2 ≤ d.length then [d.take 1, d.drop 1] else [d]

/-- Stream.wireSendFlush: allocate a fresh packet identifier, split the data,
hand every packet to the writer, flush.  The writer is modelled as an
infallible sink, so the operation always succeeds; the frame log records the
one Split invocation. -/
def Stream.wireSendFlush (C : Chunker) (o : Origin) (k : PayloadKind)
    (d : List Nat) (s : Stream) : Stream :=
  let (pid, s1) := s.nextPid
  { s1 with
    wire := s1.wire ++ (C d).map (fun c => ⟨pid, k, c⟩)
    frames := s1.frames ++ [⟨pid, k, o⟩] }

/-- The emit callback of Stream.RawSend, folded over the packets Split
produces: for every packet, under the send guard, re-check the poll policy
(aborting with its error, which Split propagates) and otherwise hand the
packet to the writer. -/
def Stream.emitChunks (pid : PacketID) (k : PayloadKind) (s : Stream) :
    List (List Nat) → Stream × Option Err
  | [] => (s, none)
  | c :: cs =>
    match (Stream.pollSend s).1 with
    | some e => (s, some e)
    | none => Stream.emitChunks pid k { s with wire := s.wire ++ [⟨pid, k, c⟩] } cs

/-- Stream.RawSend: allocate one packet identifier, split the data, emit every
packet under the poll check; a propagated error is latched into the
general-error signal and returned.  On success the frame log records the Split
invocation. -/
def Stream.rawSend (C : Chunker) (k : PayloadKind) (d : List Nat) (s : Stream) :
    Stream × Option Err :=
  let (pid, s1) := s.nextPid
  match Stream.emitChunks pid k s1 (C d) with
  | (s2, some e) => ({ s2 with sig := sigSet s2.sig e }, some e)
  | (s2, none) => ({ s2 with frames := s2.frames ++ [⟨pid, k, .rawSendO⟩] }, none)

/-- Stream.RawFlush: poll, then flush (the flush of the infallible writer
model always succeeds and leaves no trace in the state). -/
def Stream.rawFlush (s : Stream) : Stream × Option Err :=
  match (Stream.pollSend s).1 with
  | some e => (s, some e)
  | none => (s, none)

/-- Outcome of Stream.RawRecv: a packet, an error (end of stream is the
eofErr error, as the source returns io.EOF), or blocked awaiting a packet or
a signal. -/
inductive RecvResult where
  | pkt (p : Packet)
  | recvErr (e : Err)
  | blocked
deriving DecidableEq, Repr

/-- Stream.RawRecv: the recorded general error if already set; else the next
queued packet; else end-of-stream if the queue is closed; else the call
blocks (modelled as the blocked outcome, resolved by rerunning once a packet
is enqueued or the general-error signal fires). -/
def Stream.rawRecv (s : Stream) : RecvResult × Stream :=
  match s.sig with
  | some e => (.recvErr e, s)
  | none =>
    match s.queue with
    | p :: rest => (.pkt p, { s with queue := rest })
    | [] => if s.queueClosed then (.recvErr .eofErr, s) else (.blocked, s)

/-- Stream.RawError: if not already terminated, emit one Error frame carrying
the error text (emission failures ignored); in every case latch the terminal
signal. -/
def Stream.rawError (C : Chunker) (e : Err) (s : Stream) : Stream :=
  let s1 :=
    match s.termSig with
    | none => Stream.wireSendFlush C .rawErrorO .error (errData e) s
    | some _ => s
  { s1 with termSig := sigSet s1.termSig .streamTerminated }

/-- Stream.RawCancel: if not already terminated, emit one Cancel frame
(emission failures ignored); in every case latch the general-error signal to
the cancellation error and latch the terminal signal. -/
def Stream.rawCancel (C : Chunker) (s : Stream) : Stream :=
  let s1 :=
    match s.termSig with
    | none => Stream.wireSendFlush C .rawCancelO .cancel [] s
    | some _ => s
  { s1 with
    sig := sigSet s1.sig .canceled
    termSig := sigSet s1.termSig .streamTerminated }

/-- The deferred final latch of Stream.CloseSend. -/
def Stream.sendFin (s : Stream) : Stream :=
  { s with sendSig := sigSet s.sendSig .sendAfterCloseSend }

/-- Stream.CloseSend: poll; already-closed is a no-op success, any other
recorded error is returned, otherwise one CloseSend frame is emitted; in
every case the deferred latch closes the send half. -/
def Stream.closeSend (C : Chunker) (s : Stream) : Stream × Option Err :=
  match Stream.pollSend s with
  | (_, true) => (Stream.sendFin s, none)
  | (some e, false) => (Stream.sendFin s, some e)
  | (none, false) =>
    (Stream.sendFin (Stream.wireSendFlush C .closeSendO .closeSend [] s), none)

/-- The deferred final latches of Stream.Close: send-closed, terminal and
general-error signals. -/
def Stream.closeFin (s : Stream) : Stream :=
  { s with
    sendSig := sigSet s.sendSig .sendAfterCloseSend
    termSig := sigSet s.termSig .streamTerminated
    sig := sigSet s.sig .streamClosed }

/-- Stream.Close: a pre-existing error that is not the already-closed
indication short-circuits with success; otherwise a CloseSend frame is
emitted; in every case the deferred latches tear down both directions. -/
def Stream.close (C : Chunker) (s : Stream) : Stream × Option Err :=
  match Stream.pollSend s with
  | (some _, false) => (Stream.closeFin s, none)
  | _ => (Stream.closeFin (Stream.wireSendFlush C .closeO .closeSend [] s), none)

/-- The operations a stream instance can be driven with: the caller-facing
send-side and receive-side primitives plus the demultiplexer's queue actions. -/
inductive Op where
  | send (k : PayloadKind) (d : List Nat)
  | flush
  | closeSendOp
  | closeOp
  | errorOp (e : Err)
  | cancelOp
  | recvOp
  | enqueueOp (p : Packet)
  | closeQueueOp
deriving DecidableEq, Repr

/-- One step of a stream history. -/
def step (C : Chunker) (s : Stream) : Op → Stream
  | .send k d => (Stream.rawSend C k d s).1
  | .flush => (Stream.rawFlush s).1
  | .closeSendOp => (Stream.closeSend C s).1
  | .closeOp => (Stream.close C s).1
  | .errorOp e => Stream.rawError C e s
  | .cancelOp => Stream.rawCancel C s
  | .recvOp => (Stream.rawRecv s).2
  | .enqueueOp p => if s.queueClosed then s else { s with queue := s.queue ++ [p] }
  | .closeQueueOp => { s with queueClosed := true }

/-- Run a whole history of operations. -/
def run (C : Chunker) (s : Stream) (ops : List Op) : Stream :=
  ops.foldl (step C) s

/-- A frame emission counts as terminal when it was produced by RawError, by
RawCancel, or by Close (the CloseSend frame Close sends terminates the
stream); these are exactly the emissions the terminal signal guards. -/
def Origin.isTerminal : Origin → Bool
  | .rawErrorO => true
  | .rawCancelO => true
  | .closeO => true
  | .rawSendO => false
  | .closeSendO => false

/-- The terminal control frames a stream instance has emitted. -/
def Stream.terminalFrames (s : Stream) : List FrameMeta :=
  s.frames.filter (fun f => f.origin.isTerminal)

/-- Run a list of RawSend calls, reporting whether every single one of them
succeeded. -/
def runSends (C : Chunker) (s : Stream) :
    List (PayloadKind × List Nat) → Stream × Bool
  | [] => (s, true)
  | (k, d) :: rest =>
    match Stream.rawSend C k d s with
    | (s1, none) => runSends C s1 rest
    | (s1, some _) => (s1, false)

/-- The packets a list of successful RawSend calls hands the writer when the
counter starts at m: per call one fresh identifier, shared by all of that
call's packets. -/
def expectedWire (C : Chunker) (sid : Nat) (m : Nat) :
    List (PayloadKind × List Nat) → List Packet
  | [] => []
  | (k, d) :: rest =>
    (C d).map (fun c => ⟨⟨sid, (m + 1) % W⟩, k, c⟩)
      ++ expectedWire C sid ((m + 1) % W) rest

/-- The frame log of the same list of successful RawSend calls. -/
def expectedFrames (sid : Nat) (m : Nat) :
    List (PayloadKind × List Nat) → List FrameMeta
  | [] => []
  | (k, _) :: rest =>
    ⟨⟨sid, (m + 1) % W⟩, k, .rawSendO⟩ :: expectedFrames sid ((m + 1) % W) rest

/-!
Helper lemmas.
-/

theorem sigSet_isSome (s : Option Err) (e : Err) : (sigSet s e).isSome = true := by
  cases s <;> rfl

theorem sigSet_none (e : Err) : sigSet none e = some e := rfl

theorem sigSet_some (x e : Err) : sigSet (some x) e = some x := rfl

theorem pollSend_sig (s : Stream) (e : Err) (h : s.sig = some e) :
    Stream.pollSend s = (some e, false) := by
  simp [Stream.pollSend, h]

theorem pollSend_term (s : Stream) (e : Err) (h1 : s.sig = none)
    (h2 : s.termSig = some e) : Stream.pollSend s = (some e, false) := by
  simp [Stream.pollSend, h1, h2]

theorem pollSend_send (s : Stream) (e : Err) (h1 : s.sig = none)
    (h2 : s.termSig = none) (h3 : s.sendSig = some e) :
    Stream.pollSend s = (some e, true) := by
  simp [Stream.pollSend, h1, h2, h3]

theorem pollSend_open (s : Stream) (h1 : s.sig = none) (h2 : s.termSig = none)
    (h3 : s.sendSig = none) : Stream.pollSend s = (none, false) := by
  simp [Stream.pollSend, h1, h2, h3]

theorem wireSendFlush_def (C : Chunker) (o : Origin) (k : PayloadKind)
    (d : List Nat) (s : Stream) :
    Stream.wireSendFlush C o k d s =
      { s with
        messageID := (s.messageID + 1) % W
        wire := s.wire
          ++ (C d).map (fun c => ⟨⟨s.streamID, (s.messageID + 1) % W⟩, k, c⟩)
        frames := s.frames ++ [⟨⟨s.streamID, (s.messageID + 1) % W⟩, k, o⟩] } := rfl

theorem emitChunks_ok (pid : PacketID) (k : PayloadKind) :
    ∀ (cs : List (List Nat)) (s : Stream), (Stream.pollSend s).1 = none →
      Stream.emitChunks pid k s cs
        = ({ s with wire := s.wire ++ cs.map (fun c => ⟨pid, k, c⟩) }, none) := by
  intro cs
  induction cs with
  | nil => intro s h; simp [Stream.emitChunks]
  | cons c cs ih =>
    intro s h
    have h2 : (Stream.pollSend { s with wire := s.wire ++ [(⟨pid, k, c⟩ : Packet)] }).1
        = none := h
    rw [Stream.emitChunks, h]
    rw [ih _ h2]
    simp

theorem emitChunks_denied (pid : PacketID) (k : PayloadKind) (c : List Nat)
    (cs : List (List Nat)) (s : Stream) (e : Err)
    (h : (Stream.pollSend s).1 = some e) :
    Stream.emitChunks pid k s (c :: cs) = (s, some e) := by
  rw [Stream.emitChunks, h]

theorem emitChunks_spec (pid : PacketID) (k : PayloadKind) :
    ∀ (cs : List (List Nat)) (s : Stream), ∃ w,
      (Stream.emitChunks pid k s cs).1 = { s with wire := s.wire ++ w } ∧
      ∀ p ∈ w, p.pid = pid := by
  intro cs
  induction cs with
  | nil => intro s; exact ⟨[], by simp [Stream.emitChunks], by simp⟩
  | cons c cs ih =>
    intro s
    cases hp : (Stream.pollSend s).1 with
    | some e => exact ⟨[], by simp [Stream.emitChunks, hp], by simp⟩
    | none =>
      obtain ⟨w, hw, hpid⟩ := ih { s with wire := s.wire ++ [⟨pid, k, c⟩] }
      refine ⟨⟨pid, k, c⟩ :: w, ?_, ?_⟩
      · rw [Stream.emitChunks, hp, hw]; simp
      · intro p hmem
        rcases List.mem_cons.mp hmem with h | h
        · rw [h]
        · exact hpid p h

theorem rawSend_ok (C : Chunker) (k : PayloadKind) (d : List Nat) (s : Stream)
    (h : (Stream.pollSend s).1 = none) :
    Stream.rawSend C k d s =
      ({ s with
          messageID := (s.messageID + 1) % W
          wire := s.wire
            ++ (C d).map (fun c => ⟨⟨s.streamID, (s.messageID + 1) % W⟩, k, c⟩)
          frames := s.frames
            ++ [⟨⟨s.streamID, (s.messageID + 1) % W⟩, k, .rawSendO⟩] }, none) := by
  have h1 : (Stream.pollSend { s with messageID := (s.messageID + 1) % W }).1
      = none := h
  rw [Stream.rawSend]
  simp only [Stream.nextPid]
  rw [emitChunks_ok _ _ _ _ h1]

theorem rawSend_denied (C : Chunker) (k : PayloadKind) (d : List Nat) (s : Stream)
    (e : Err) (h : (Stream.pollSend s).1 = some e) (hC : C d ≠ []) :
    Stream.rawSend C k d s
      = ({ s with messageID := (s.messageID + 1) % W, sig := sigSet s.sig e },
         some e) := by
  have h1 : (Stream.pollSend { s with messageID := (s.messageID + 1) % W }).1
      = some e := h
  rcases hcd : C d with _ | ⟨c, cs⟩
  · exact absurd hcd hC
  · rw [Stream.rawSend]
    simp only [Stream.nextPid]
    rw [hcd, emitChunks_denied _ _ _ _ _ _ h1]

/-!
Claim theorems: poll policy, close and cancel primitives, receive path.
-/

/-- C6: the poll-send policy denies in exactly the three-tier order of the
source: the general error when the general-error signal is set; else the
terminal error when the terminal signal is set, not flagged already-closed;
else the send-closed error flagged already-closed when only the send-closed
signal is set; else it allows. -/
theorem c6_pollSend_three_tier (s : Stream) (e : Err) :
    (s.sig = some e → Stream.pollSend s = (some e, false)) ∧
    (s.sig = none → s.termSig = some e → Stream.pollSend s = (some e, false)) ∧
    (s.sig = none → s.termSig = none → s.sendSig = some e →
      Stream.pollSend s = (some e, true)) ∧
    (s.sig = none → s.termSig = none → s.sendSig = none →
      Stream.pollSend s = (none, false)) :=
  ⟨fun h1 => pollSend_sig s e h1,
   fun h1 h2 => pollSend_term s e h1 h2,
   fun h1 h2 h3 => pollSend_send s e h1 h2 h3,
   fun h1 h2 h3 => pollSend_open s h1 h2 h3⟩

/-- C6 witness: the four tiers evaluated at concrete stream states. -/
theorem c6_pollSend_three_tier_witness :
    Stream.pollSend { Stream.new 1 with sig := some .canceled }
      = (some .canceled, false) ∧
    Stream.pollSend { Stream.new 1 with termSig := some .streamTerminated }
      = (some .streamTerminated, false) ∧
    Stream.pollSend { Stream.new 1 with sendSig := some .sendAfterCloseSend }
      = (some .sendAfterCloseSend, true) ∧
    Stream.pollSend (Stream.new 1) = (none, false) :=
  ⟨(c6_pollSend_three_tier _ .canceled).1 rfl,
   (c6_pollSend_three_tier _ .streamTerminated).2.1 rfl rfl,
   (c6_pollSend_three_tier _ .sendAfterCloseSend).2.2.1 rfl rfl rfl,
   (c6_pollSend_three_tier _ .canceled).2.2.2 rfl rfl rfl⟩

/-- C8: RawRecv returns the recorded error at once when the general-error
signal is set; otherwise it takes the next queued packet; on a closed empty
queue with no error it reports end of stream; and with no error, no packet
and an open queue it blocks (resolved by rerunning once the signal fires or
a packet arrives, per the first two cases). -/
theorem c8_rawRecv_cases (s : Stream) (e : Err) (p : Packet)
    (rest : List Packet) :
    (s.sig = some e → Stream.rawRecv s = (.recvErr e, s)) ∧
    (s.sig = none → s.queue = p :: rest →
      Stream.rawRecv s = (.pkt p, { s with queue := rest })) ∧
    (s.sig = none → s.queue = [] → s.queueClosed = true →
      Stream.rawRecv s = (.recvErr .eofErr, s)) ∧
    (s.sig = none → s.queue = [] → s.queueClosed = false →
      Stream.rawRecv s = (.blocked, s)) := by
  refine ⟨fun h1 => ?_, fun h1 h2 => ?_, fun h1 h2 h3 => ?_, fun h1 h2 h3 => ?_⟩
  all_goals simp [Stream.rawRecv, h1]
  all_goals simp [*]

/-- C8 witness: the four receive outcomes at concrete states. -/
theorem c8_rawRecv_cases_witness :
    Stream.rawRecv { Stream.new 1 with sig := some .canceled }
      = (.recvErr .canceled, { Stream.new 1 with sig := some .canceled }) ∧
    Stream.rawRecv { Stream.new 1 with queue := [⟨⟨1, 1⟩, .message, [2]⟩] }
      = (.pkt ⟨⟨1, 1⟩, .message, [2]⟩, Stream.new 1) ∧
    Stream.rawRecv { Stream.new 1 with queueClosed := true }
      = (.recvErr .eofErr, { Stream.new 1 with queueClosed := true }) ∧
    Stream.rawRecv (Stream.new 1) = (.blocked, Stream.new 1) :=
  ⟨(c8_rawRecv_cases _ .canceled ⟨⟨1, 1⟩, .message, [2]⟩ []).1 rfl,
   (c8_rawRecv_cases _ .canceled ⟨⟨1, 1⟩, .message, [2]⟩ []).2.1 rfl rfl,
   (c8_rawRecv_cases _ .canceled ⟨⟨1, 1⟩, .message, [2]⟩ []).2.2.1 rfl rfl rfl,
   (c8_rawRecv_cases _ .canceled ⟨⟨1, 1⟩, .message, [2]⟩ []).2.2.2 rfl rfl rfl⟩

/-- C3: from a stream with no general, terminal or send-closed error, the
first CloseSend succeeds, emits exactly one CloseSend control frame and
latches the send-closed signal; a second CloseSend also succeeds and emits
nothing further. -/
theorem c3_closeSend_idempotent (C : Chunker) (s : Stream) (h1 : s.sig = none)
    (h2 : s.termSig = none) (h3 : s.sendSig = none) :
    (Stream.closeSend C s).2 = none ∧
    (Stream.closeSend C s).1.frames = s.frames
      ++ [⟨⟨s.streamID, (s.messageID + 1) % W⟩, .closeSend, .closeSendO⟩] ∧
    (Stream.closeSend C s).1.sendSig = some .sendAfterCloseSend ∧
    (Stream.closeSend C (Stream.closeSend C s).1).2 = none ∧
    (Stream.closeSend C (Stream.closeSend C s).1).1.frames
      = (Stream.closeSend C s).1.frames ∧
    (Stream.closeSend C (Stream.closeSend C s).1).1.wire
      = (Stream.closeSend C s).1.wire := by
  have hp := pollSend_open s h1 h2 h3
  have hfirst : Stream.closeSend C s
      = (Stream.sendFin (Stream.wireSendFlush C .closeSendO .closeSend [] s),
         none) := by
    rw [Stream.closeSend, hp]
  have hp2 : Stream.pollSend
      (Stream.sendFin (Stream.wireSendFlush C .closeSendO .closeSend [] s))
      = (some .sendAfterCloseSend, true) := by
    apply pollSend_send
    · simp [Stream.sendFin, wireSendFlush_def, h1]
    · simp [Stream.sendFin, wireSendFlush_def, h2]
    · simp [Stream.sendFin, wireSendFlush_def, h3, sigSet]
  refine ⟨?_, ?_, ?_, ?_, ?_, ?_⟩
  · rw [hfirst]
  · rw [hfirst]; simp [Stream.sendFin, wireSendFlush_def]
  · rw [hfirst]; simp [Stream.sendFin, wireSendFlush_def, h3, sigSet]
  · rw [hfirst, Stream.closeSend, hp2]
  · rw [hfirst, Stream.closeSend, hp2]; simp [Stream.sendFin]
  · rw [hfirst, Stream.closeSend, hp2]; simp [Stream.sendFin]

/-- C3 witness: both CloseSend calls on a fresh stream, concretely. -/
theorem c3_closeSend_idempotent_witness :
    (Stream.closeSend oneChunk (Stream.new 2)).2 = none ∧
    (Stream.closeSend oneChunk (Stream.new 2)).1.frames
      = [⟨⟨2, 1⟩, .closeSend, .closeSendO⟩] ∧
    (Stream.closeSend oneChunk (Stream.new 2)).1.sendSig
      = some .sendAfterCloseSend ∧
    (Stream.closeSend oneChunk (Stream.closeSend oneChunk (Stream.new 2)).1).2
      = none ∧
    (Stream.closeSend oneChunk (Stream.closeSend oneChunk (Stream.new 2)).1).1.frames
      = (Stream.closeSend oneChunk (Stream.new 2)).1.frames ∧
    (Stream.closeSend oneChunk (Stream.closeSend oneChunk (Stream.new 2)).1).1.wire
      = (Stream.closeSend oneChunk (Stream.new 2)).1.wire := by
  have h := c3_closeSend_idempotent oneChunk (Stream.new 2) rfl rfl rfl
  simpa using h

/-- C5: when Close finds a recorded error that is not flagged already-closed
(the general-error or terminal tier of the poll policy), it returns success
without emitting any frame, while still latching the send-closed, terminal
and general-error signals. -/
theorem c5_close_short_circuit (C : Chunker) (s : Stream)
    (h1 : (Stream.pollSend s).1 ≠ none) (h2 : (Stream.pollSend s).2 = false) :
    (Stream.close C s).2 = none ∧
    (Stream.close C s).1.frames = s.frames ∧
    (Stream.close C s).1.wire = s.wire ∧
    (Stream.close C s).1.sendSig.isSome = true ∧
    (Stream.close C s).1.termSig.isSome = true ∧
    (Stream.close C s).1.sig.isSome = true := by
  rcases hp : Stream.pollSend s with ⟨o, b⟩
  rcases o with _ | e
  · exact absurd (by rw [hp]) h1
  · have hb : b = false := by rw [hp] at h2; exact h2
    subst hb
    have hc : Stream.close C s = (Stream.closeFin s, none) := by
      rw [Stream.close, hp]
    rw [hc]
    refine ⟨rfl, rfl, rfl, ?_, ?_, ?_⟩ <;> simp [Stream.closeFin, sigSet_isSome]

/-- C5 witness: Close on a cancelled stream (general error recorded, not
already-closed) returns success, emits nothing, and all three latches end
set. -/
theorem c5_close_short_circuit_witness :
    (Stream.close oneChunk (Stream.rawCancel oneChunk (Stream.new 4))).2 = none ∧
    (Stream.close oneChunk (Stream.rawCancel oneChunk (Stream.new 4))).1.frames
      = (Stream.rawCancel oneChunk (Stream.new 4)).frames ∧
    (Stream.close oneChunk (Stream.rawCancel oneChunk (Stream.new 4))).1.wire
      = (Stream.rawCancel oneChunk (Stream.new 4)).wire ∧
    (Stream.close oneChunk (Stream.rawCancel oneChunk (Stream.new 4))).1.sendSig.isSome
      = true ∧
    (Stream.close oneChunk (Stream.rawCancel oneChunk (Stream.new 4))).1.termSig.isSome
      = true ∧
    (Stream.close oneChunk (Stream.rawCancel oneChunk (Stream.new 4))).1.sig.isSome
      = true :=
  c5_close_short_circuit oneChunk (Stream.rawCancel oneChunk (Stream.new 4))
    (by decide) (by decide)

/-- C7: RawCancel with the terminal signal unset emits exactly one Cancel
control frame; with it set it emits nothing; in every case it latches the
terminal signal and latches the general-error signal to the cancellation
error (a latch: an already-recorded error is kept); a repeated RawCancel, or
one after RawError, emits no frame. -/
theorem c7_rawCancel (C : Chunker) (s : Stream) (e : Err) :
    (s.termSig = none →
      (Stream.rawCancel C s).frames = s.frames
        ++ [⟨⟨s.streamID, (s.messageID + 1) % W⟩, .cancel, .rawCancelO⟩] ∧
      (Stream.rawCancel C s).wire = s.wire
        ++ (C []).map (fun c => ⟨⟨s.streamID, (s.messageID + 1) % W⟩, .cancel, c⟩)) ∧
    (s.termSig ≠ none →
      (Stream.rawCancel C s).frames = s.frames ∧
      (Stream.rawCancel C s).wire = s.wire) ∧
    (Stream.rawCancel C s).termSig.isSome = true ∧
    (s.sig = none → (Stream.rawCancel C s).sig = some .canceled) ∧
    (s.sig = some e → (Stream.rawCancel C s).sig = some e) ∧
    (Stream.rawCancel C (Stream.rawCancel C s)).frames
      = (Stream.rawCancel C s).frames ∧
    (Stream.rawCancel C (Stream.rawError C e s)).frames
      = (Stream.rawError C e s).frames := by
  have hterm : ∀ t : Stream, (Stream.rawCancel C t).termSig.isSome = true := by
    intro t
    cases ht : t.termSig <;> simp [Stream.rawCancel, ht, sigSet_isSome]
  have hnoemit : ∀ t : Stream, t.termSig ≠ none →
      (Stream.rawCancel C t).frames = t.frames ∧
      (Stream.rawCancel C t).wire = t.wire := by
    intro t ht
    cases h : t.termSig
    · exact absurd h ht
    · simp [Stream.rawCancel, h]
  have hterm2 : (Stream.rawCancel C s).termSig ≠ none := by
    have := hterm s
    cases h : (Stream.rawCancel C s).termSig
    · rw [h] at this; simp at this
    · simp
  have hterm3 : ∀ t : Stream, (Stream.rawError C e t).termSig ≠ none := by
    intro t
    cases ht : t.termSig <;>
      simp [Stream.rawError, ht, sigSet, wireSendFlush_def]
  refine ⟨?_, hnoemit s, hterm s, ?_, ?_, (hnoemit _ hterm2).1,
    (hnoemit _ (hterm3 s)).1⟩
  · intro ht
    constructor <;> simp [Stream.rawCancel, ht, wireSendFlush_def]
  · intro hs
    cases ht : s.termSig <;>
      simp [Stream.rawCancel, ht, wireSendFlush_def, hs, sigSet]
  · intro hs
    cases ht : s.termSig <;>
      simp [Stream.rawCancel, ht, wireSendFlush_def, hs, sigSet]

/-- C7 witness: RawCancel on a fresh stream emits one Cancel frame and
latches both signals; a second RawCancel and a RawCancel after RawError emit
nothing. -/
theorem c7_rawCancel_witness :
    (Stream.rawCancel oneChunk (Stream.new 4)).frames
      = [⟨⟨4, 1⟩, .cancel, .rawCancelO⟩] ∧
    (Stream.rawCancel oneChunk (Stream.new 4)).wire
      = [⟨⟨4, 1⟩, .cancel, []⟩] ∧
    (Stream.rawCancel oneChunk (Stream.new 4)).termSig.isSome = true ∧
    (Stream.rawCancel oneChunk (Stream.new 4)).sig = some .canceled ∧
    (Stream.rawCancel oneChunk (Stream.rawCancel oneChunk (Stream.new 4))).frames
      = (Stream.rawCancel oneChunk (Stream.new 4)).frames ∧
    (Stream.rawCancel oneChunk
        (Stream.rawError oneChunk .streamClosed (Stream.new 4))).frames
      = (Stream.rawError oneChunk .streamClosed (Stream.new 4)).frames := by
  have h := c7_rawCancel oneChunk (Stream.new 4) .streamClosed
  refine ⟨?_, ?_, h.2.2.1, h.2.2.2.1 rfl, h.2.2.2.2.2.1, h.2.2.2.2.2.2⟩
  · have := (h.1 rfl).1; simpa using this
  · have := (h.1 rfl).2; simpa using this

/-- C9: a RawSend denied by the poll policy (here: only the send half closed)
propagates the denial error out of Split, records it into the general-error
signal and writes nothing; every subsequent RawRecv then fails with that same
error, so a send after CloseSend poisons the receive half too. -/
theorem c9_denied_send_poisons_recv (C : Chunker) (k : PayloadKind)
    (d : List Nat) (s : Stream) (e : Err) (h1 : s.sig = none)
    (h2 : s.termSig = none) (h3 : s.sendSig = some e) (hC : C d ≠ []) :
    (Stream.rawSend C k d s).2 = some e ∧
    (Stream.rawSend C k d s).1.sig = some e ∧
    (Stream.rawSend C k d s).1.wire = s.wire ∧
    (Stream.rawRecv (Stream.rawSend C k d s).1).1 = .recvErr e := by
  have hp : (Stream.pollSend s).1 = some e := by
    rw [pollSend_send s e h1 h2 h3]
  have hd := rawSend_denied C k d s e hp hC
  rw [hd]
  refine ⟨rfl, ?_, rfl, ?_⟩
  · simp [h1, sigSet]
  · simp [Stream.rawRecv, h1, sigSet]

/-- C9 witness: CloseSend then RawSend then RawRecv on a fresh stream; the
send is denied with the send-after-CloseSend error, latches it, writes
nothing, and the receive fails with the same error. -/
theorem c9_denied_send_poisons_recv_witness :
    (Stream.rawSend oneChunk .message [1]
        (Stream.closeSend oneChunk (Stream.new 2)).1).2
      = some .sendAfterCloseSend ∧
    (Stream.rawSend oneChunk .message [1]
        (Stream.closeSend oneChunk (Stream.new 2)).1).1.sig
      = some .sendAfterCloseSend ∧
    (Stream.rawSend oneChunk .message [1]
        (Stream.closeSend oneChunk (Stream.new 2)).1).1.wire
      = (Stream.closeSend oneChunk (Stream.new 2)).1.wire ∧
    (Stream.rawRecv (Stream.rawSend oneChunk .message [1]
        (Stream.closeSend oneChunk (Stream.new 2)).1).1).1
      = .recvErr .sendAfterCloseSend :=
  c9_denied_send_poisons_recv oneChunk .message [1]
    (Stream.closeSend oneChunk (Stream.new 2)).1 .sendAfterCloseSend
    (by decide) (by decide) (by decide) (by decide)

/-- C4 counterexample: after Close on a fresh stream, RawSend returns the
general stream-closed error, which is a different value from the
send-after-CloseSend error, and the poll policy reports it with the
already-closed flag false - so the claim that the send-closed indication
(distinguished as already-closed) is returned is false on the code. -/
theorem c4_counterexample :
    (Stream.rawSend oneChunk .message [5]
        (Stream.close oneChunk (Stream.new 3)).1).2
      = some .streamClosed ∧
    some Err.streamClosed ≠ some Err.sendAfterCloseSend ∧
    Stream.pollSend (Stream.close oneChunk (Stream.new 3)).1
      = (some .streamClosed, false) := by
  refine ⟨by decide, by decide, by decide⟩

/-- Close always takes one of its two branches, and both wrap some state in
the final deferred latches. -/
theorem close_shape (C : Chunker) (s : Stream) :
    ∃ t : Stream, Stream.close C s = (Stream.closeFin t, none) ∧ t.sig = s.sig := by
  rcases hp : Stream.pollSend s with ⟨o, b⟩
  rcases o with _ | e <;> rcases b with _ | _
  · exact ⟨_, by rw [Stream.close, hp], by simp [wireSendFlush_def]⟩
  · exact ⟨_, by rw [Stream.close, hp], by simp [wireSendFlush_def]⟩
  · exact ⟨s, by rw [Stream.close, hp], rfl⟩
  · exact ⟨_, by rw [Stream.close, hp], by simp [wireSendFlush_def]⟩

/-- C4 amended: after Close has returned, every RawSend returns the error
recorded in the general-error signal (the stream-closed marker when nothing
was recorded before, reported by the general tier of the poll policy, not by
the already-closed tier) and performs no write to the writer. -/
theorem c4_send_after_close (C : Chunker) (k : PayloadKind) (d : List Nat)
    (s : Stream) (hC : C d ≠ []) :
    (Stream.close C s).1.sig.isSome = true ∧
    (Stream.rawSend C k d (Stream.close C s).1).2 = (Stream.close C s).1.sig ∧
    (Stream.rawSend C k d (Stream.close C s).1).1.wire
      = (Stream.close C s).1.wire := by
  obtain ⟨t, hc, hsig⟩ := close_shape C s
  rw [hc]
  have hsome : ∃ e, (Stream.closeFin t).sig = some e := by
    cases h : t.sig <;> simp [Stream.closeFin, sigSet, h]
  obtain ⟨e, he⟩ := hsome
  have hp : (Stream.pollSend (Stream.closeFin t)).1 = some e := by
    rw [pollSend_sig _ e he]
  have hd := rawSend_denied C k d _ e hp hC
  rw [hd]
  exact ⟨by rw [he]; rfl, by simp [he, sigSet], rfl⟩

/-- C4 amended witness: Close on a fresh stream then RawSend, concretely. -/
theorem c4_send_after_close_witness :
    (Stream.close oneChunk (Stream.new 3)).1.sig.isSome = true ∧
    (Stream.rawSend oneChunk .message [5] (Stream.close oneChunk (Stream.new 3)).1).2
      = (Stream.close oneChunk (Stream.new 3)).1.sig ∧
    (Stream.rawSend oneChunk .message [5] (Stream.close oneChunk (Stream.new 3)).1).1.wire
      = (Stream.close oneChunk (Stream.new 3)).1.wire :=
  c4_send_after_close oneChunk .message [5] (Stream.new 3) (by decide)

/-- C2 counterexample: a single RawSend whose payload the framer partitions
into two packets (within the Split contract of one or more packets per
payload) succeeds, yet hands the writer two packets carrying the same packet
identifier - the writer-observed identifier sequence is not strictly
increasing and has a duplicate. -/
theorem c2_counterexample :
    ValidChunker splitTwo ∧
    (Stream.rawSend splitTwo .message [0, 1] (Stream.new 7)).2 = none ∧
    (Stream.rawSend splitTwo .message [0, 1] (Stream.new 7)).1.wire.map
        (fun p => p.pid) = [⟨7, 1⟩, ⟨7, 1⟩] ∧
    ¬ List.Pairwise (fun a b : PacketID => a.messageID < b.messageID)
        ((Stream.rawSend splitTwo .message [0, 1] (Stream.new 7)).1.wire.map
          (fun p => p.pid)) := by
  refine ⟨?_, by decide, by decide, by decide⟩
  intro d
  by_cases h : 2 ≤ d.length
  · refine ⟨by simp [splitTwo, h], ?_, ?_⟩
    · show (splitTwo d).flatten = d
      simp only [splitTwo, if_pos h, List.flatten_cons, List.flatten_nil,
        List.append_nil]
      rw [List.take_append_drop]
    · intro hd
      rw [hd] at h
      simp at h
  · refine ⟨by simp [splitTwo, h], by simp [splitTwo, h], ?_⟩
    intro hd
    simp [splitTwo, h, hd]

/-!
The single-terminal-frame invariant (claim C1): across any history of
operations, at most one frame emission is terminal, and none has happened
while the terminal signal is still unset.
-/

/-- The invariant: at most one terminal frame so far, and none at all while
the terminal signal is unset. -/
def C1Inv (s : Stream) : Prop :=
  s.terminalFrames.length ≤ 1 ∧ (s.termSig = none → s.terminalFrames = [])

theorem c1inv_of_eq (a b : Stream) (hf : a.frames = b.frames)
    (ht : a.termSig = b.termSig) (h : C1Inv b) : C1Inv a := by
  obtain ⟨h1, h2⟩ := h
  constructor
  · simpa [Stream.terminalFrames, hf] using h1
  · intro hn
    rw [ht] at hn
    simpa [Stream.terminalFrames, hf] using h2 hn

theorem rawFlush_fst (s : Stream) : (Stream.rawFlush s).1 = s := by
  cases h : (Stream.pollSend s).1 <;> simp [Stream.rawFlush, h]

theorem rawSend_c1 (C : Chunker) (k : PayloadKind) (d : List Nat) (s : Stream) :
    (Stream.rawSend C k d s).1.frames = s.frames ∨
      (Stream.rawSend C k d s).1.frames
        = s.frames ++ [⟨⟨s.streamID, (s.messageID + 1) % W⟩, k, .rawSendO⟩] := by
  cases hp : (Stream.pollSend s).1 with
  | none => right; rw [rawSend_ok C k d s hp]
  | some e =>
    rcases hcd : C d with _ | ⟨c, cs⟩
    · right
      rw [Stream.rawSend]
      simp only [Stream.nextPid]
      rw [hcd, Stream.emitChunks]
    · left
      rw [rawSend_denied C k d s e hp (by rw [hcd]; simp)]

theorem rawSend_termSig (C : Chunker) (k : PayloadKind) (d : List Nat)
    (s : Stream) : (Stream.rawSend C k d s).1.termSig = s.termSig := by
  cases hp : (Stream.pollSend s).1 with
  | none => rw [rawSend_ok C k d s hp]
  | some e =>
    rcases hcd : C d with _ | ⟨c, cs⟩
    · rw [Stream.rawSend]
      simp only [Stream.nextPid]
      rw [hcd, Stream.emitChunks]
    · rw [rawSend_denied C k d s e hp (by rw [hcd]; simp)]

theorem closeSend_c1 (C : Chunker) (s : Stream) :
    ((Stream.closeSend C s).1.frames = s.frames ∨
      (Stream.closeSend C s).1.frames = s.frames
        ++ [⟨⟨s.streamID, (s.messageID + 1) % W⟩, .closeSend, .closeSendO⟩]) ∧
    (Stream.closeSend C s).1.termSig = s.termSig := by
  rcases hp : Stream.pollSend s with ⟨o, b⟩
  rcases o with _ | e <;> rcases b with _ | _ <;>
    simp [Stream.closeSend, hp, Stream.sendFin, wireSendFlush_def]

theorem step_c1inv (C : Chunker) (s : Stream) (op : Op) (h : C1Inv s) :
    C1Inv (step C s op) := by
  obtain ⟨hle, hnone⟩ := h
  cases op with
  | send k d =>
    have ht := rawSend_termSig C k d s
    rcases rawSend_c1 C k d s with hf | hf
    · exact c1inv_of_eq _ s hf ht ⟨hle, hnone⟩
    · constructor
      · show ((Stream.rawSend C k d s).1.frames.filter
            (fun f => f.origin.isTerminal)).length ≤ 1
        rw [hf]
        simpa [List.filter_append, Origin.isTerminal, Stream.terminalFrames]
          using hle
      · intro hn
        rw [step, ht] at hn
        show (Stream.rawSend C k d s).1.frames.filter
            (fun f => f.origin.isTerminal) = []
        rw [hf]
        simpa [List.filter_append, Origin.isTerminal, Stream.terminalFrames]
          using hnone hn
  | flush => exact c1inv_of_eq _ s (by rw [step, rawFlush_fst]) (by rw [step, rawFlush_fst]) ⟨hle, hnone⟩
  | closeSendOp =>
    obtain ⟨hf2, ht⟩ := closeSend_c1 C s
    rcases hf2 with hf | hf
    · exact c1inv_of_eq _ s hf ht ⟨hle, hnone⟩
    · constructor
      · show ((Stream.closeSend C s).1.frames.filter
            (fun f => f.origin.isTerminal)).length ≤ 1
        rw [hf]
        simpa [List.filter_append, Origin.isTerminal, Stream.terminalFrames]
          using hle
      · intro hn
        rw [step, ht] at hn
        show (Stream.closeSend C s).1.frames.filter
            (fun f => f.origin.isTerminal) = []
        rw [hf]
        simpa [List.filter_append, Origin.isTerminal, Stream.terminalFrames]
          using hnone hn
  | closeOp =>
    show C1Inv (Stream.close C s).1
    rcases hs : s.sig with _ | e
    · rcases ht : s.termSig with _ | e2
      · have hf : s.frames.filter (fun f => f.origin.isTerminal) = [] := by
          have := hnone ht
          rwa [Stream.terminalFrames] at this
        rcases hss : s.sendSig with _ | e3
        · have hp := pollSend_open s hs ht hss
          rw [Stream.close, hp]
          constructor
          · simp [Stream.closeFin, wireSendFlush_def, Stream.terminalFrames,
              List.filter_append, Origin.isTerminal, hf]
            intro a ha
            simpa using List.filter_eq_nil_iff.mp hf a ha
          · intro hn
            simp [Stream.closeFin, wireSendFlush_def, sigSet, ht] at hn
        · have hp := pollSend_send s e3 hs ht hss
          rw [Stream.close, hp]
          constructor
          · simp [Stream.closeFin, wireSendFlush_def, Stream.terminalFrames,
              List.filter_append, Origin.isTerminal, hf]
            intro a ha
            simpa using List.filter_eq_nil_iff.mp hf a ha
          · intro hn
            simp [Stream.closeFin, wireSendFlush_def, sigSet, ht] at hn
      · have hp := pollSend_term s e2 hs ht
        rw [Stream.close, hp]
        constructor
        · simpa [Stream.closeFin, Stream.terminalFrames] using hle
        · intro hn
          simp [Stream.closeFin, sigSet, ht] at hn
    · have hp := pollSend_sig s e hs
      rw [Stream.close, hp]
      constructor
      · simpa [Stream.closeFin, Stream.terminalFrames] using hle
      · intro hn
        cases htm : s.termSig <;> simp [Stream.closeFin, sigSet, htm] at hn
  | errorOp e =>
    show C1Inv (Stream.rawError C e s)
    rcases ht : s.termSig with _ | e2
    · have hf : s.frames.filter (fun f => f.origin.isTerminal) = [] := by
        have := hnone ht
        rwa [Stream.terminalFrames] at this
      rw [Stream.rawError]
      constructor
      · simp [ht, Stream.terminalFrames, wireSendFlush_def, List.filter_append,
          Origin.isTerminal, hf]
        intro a ha
        simpa using List.filter_eq_nil_iff.mp hf a ha
      · intro hn
        simp [ht, wireSendFlush_def, sigSet] at hn
    · rw [Stream.rawError]
      constructor
      · simpa [ht, Stream.terminalFrames] using hle
      · intro hn
        simp [ht, sigSet] at hn
  | cancelOp =>
    show C1Inv (Stream.rawCancel C s)
    rcases ht : s.termSig with _ | e2
    · have hf : s.frames.filter (fun f => f.origin.isTerminal) = [] := by
        have := hnone ht
        rwa [Stream.terminalFrames] at this
      rw [Stream.rawCancel]
      constructor
      · simp [ht, Stream.terminalFrames, wireSendFlush_def, List.filter_append,
          Origin.isTerminal, hf]
        intro a ha
        simpa using List.filter_eq_nil_iff.mp hf a ha
      · intro hn
        simp [ht, wireSendFlush_def, sigSet] at hn
    · rw [Stream.rawCancel]
      constructor
      · simpa [ht, Stream.terminalFrames] using hle
      · intro hn
        simp [ht, sigSet] at hn
  | recvOp =>
    have hp : (Stream.rawRecv s).2.frames = s.frames ∧
        (Stream.rawRecv s).2.termSig = s.termSig := by
      rcases hs : s.sig with _ | e
      · rcases hq : s.queue with _ | ⟨p, rest⟩
        · cases hqc : s.queueClosed <;> simp [Stream.rawRecv, hs, hq, hqc]
        · simp [Stream.rawRecv, hs, hq]
      · simp [Stream.rawRecv, hs]
    exact c1inv_of_eq _ s hp.1 hp.2 ⟨hle, hnone⟩
  | enqueueOp p =>
    cases hqc : s.queueClosed <;>
      exact c1inv_of_eq _ s (by simp [step, hqc]) (by simp [step, hqc])
        ⟨hle, hnone⟩
  | closeQueueOp => exact c1inv_of_eq _ s rfl rfl ⟨hle, hnone⟩

theorem run_c1inv (C : Chunker) :
    ∀ (ops : List Op) (s : Stream), C1Inv s → C1Inv (run C s ops)
  | [], _, h => h
  | op :: ops, s, h => run_c1inv C ops (step C s op) (step_c1inv C s op h)

/-- C1: over every history of operations on a stream instance, at most one
terminal control frame (an Error frame, a Cancel frame, or the CloseSend
frame emitted by Close, which terminates the stream) is ever handed to the
writer; in particular Close after CloseSend never produces a second terminal
frame. -/
theorem c1_at_most_one_terminal_frame (C : Chunker) (sid : Nat)
    (ops : List Op) :
    ((run C (Stream.new sid) ops).terminalFrames).length ≤ 1 :=
  (run_c1inv C ops (Stream.new sid)
    ⟨by simp [Stream.new, Stream.terminalFrames],
     fun _ => by simp [Stream.new, Stream.terminalFrames]⟩).1

/-!
Packet-identifier allocation (claims C10 and C2): the counter is incremented
before use, once per Split invocation, so identifiers start at one and every
packet of one RawSend shares that call's identifier.
-/

/-- The pid invariant: after at most k identifier allocations the counter is
at most k, and every emitted packet carries an identifier between one and the
current counter. -/
def PidInv (k : Nat) (s : Stream) : Prop :=
  s.messageID ≤ k ∧
    ∀ p ∈ s.wire, 1 ≤ p.pid.messageID ∧ p.pid.messageID ≤ s.messageID

/-- Every operation either leaves the counter and the wire alone, or bumps
the counter once and appends only packets carrying the freshly bumped
identifier. -/
def AllocShape (s t : Stream) : Prop :=
  (t.messageID = s.messageID ∧ t.wire = s.wire) ∨
    ∃ l, t.messageID = (s.messageID + 1) % W ∧ t.wire = s.wire ++ l ∧
      ∀ p ∈ l, p.pid = PacketID.mk s.streamID ((s.messageID + 1) % W)

theorem pidinv_of_alloc (s t : Stream) (k : Nat) (h : PidInv k s)
    (hk : k + 1 < W) (ha : AllocShape s t) : PidInv (k + 1) t := by
  obtain ⟨h1, h2⟩ := h
  rcases ha with ⟨hm, hw⟩ | ⟨l, hm, hw, hl⟩
  · refine ⟨by omega, fun p hp => ?_⟩
    rw [hm]
    exact h2 p (by rw [← hw]; exact hp)
  · have hmod : (s.messageID + 1) % W = s.messageID + 1 :=
      Nat.mod_eq_of_lt (by omega)
    refine ⟨by rw [hm, hmod]; omega, fun p hp => ?_⟩
    rw [hw] at hp
    rcases List.mem_append.mp hp with hpa | hpb
    · have := h2 p hpa
      rw [hm, hmod]
      omega
    · have hpp := hl p hpb
      rw [hm, hpp]
      show 1 ≤ (s.messageID + 1) % W ∧ (s.messageID + 1) % W ≤ (s.messageID + 1) % W
      rw [hmod]
      omega

theorem wireSendFlush_alloc (C : Chunker) (o : Origin) (k : PayloadKind)
    (d : List Nat) (s : Stream) :
    AllocShape s (Stream.wireSendFlush C o k d s) := by
  right
  refine ⟨(C d).map (fun c => ⟨⟨s.streamID, (s.messageID + 1) % W⟩, k, c⟩),
    by rw [wireSendFlush_def], by rw [wireSendFlush_def], ?_⟩
  intro p hp
  obtain ⟨c, _, hc⟩ := List.mem_map.mp hp
  rw [← hc]

theorem rawSend_alloc (C : Chunker) (k : PayloadKind) (d : List Nat)
    (s : Stream) : AllocShape s (Stream.rawSend C k d s).1 := by
  right
  rw [Stream.rawSend]
  simp only [Stream.nextPid]
  obtain ⟨w, hw, hpid⟩ := emitChunks_spec ⟨s.streamID, (s.messageID + 1) % W⟩ k
    (C d) { s with messageID := (s.messageID + 1) % W }
  rcases he : Stream.emitChunks ⟨s.streamID, (s.messageID + 1) % W⟩ k
      { s with messageID := (s.messageID + 1) % W } (C d) with ⟨s2, r⟩
  rw [he] at hw
  refine ⟨w, ?_⟩
  cases r <;> simp_all

theorem closeSend_alloc (C : Chunker) (s : Stream) :
    AllocShape s (Stream.closeSend C s).1 := by
  have hemit : AllocShape s
      (Stream.sendFin (Stream.wireSendFlush C .closeSendO .closeSend [] s)) := by
    rcases wireSendFlush_alloc C .closeSendO .closeSend [] s with
      ⟨hm, hw⟩ | ⟨l, hm, hw, hl⟩
    · exact Or.inl ⟨hm, hw⟩
    · exact Or.inr ⟨l, hm, hw, hl⟩
  rcases hp : Stream.pollSend s with ⟨o, b⟩
  rcases o with _ | e <;> rcases b with _ | _ <;> rw [Stream.closeSend, hp]
  · exact hemit
  · exact Or.inl ⟨rfl, rfl⟩
  · exact Or.inl ⟨rfl, rfl⟩
  · exact Or.inl ⟨rfl, rfl⟩

theorem close_alloc (C : Chunker) (s : Stream) :
    AllocShape s (Stream.close C s).1 := by
  have hemit : AllocShape s
      (Stream.closeFin (Stream.wireSendFlush C .closeO .closeSend [] s)) := by
    rcases wireSendFlush_alloc C .closeO .closeSend [] s with
      ⟨hm, hw⟩ | ⟨l, hm, hw, hl⟩
    · exact Or.inl ⟨hm, hw⟩
    · exact Or.inr ⟨l, hm, hw, hl⟩
  rcases hp : Stream.pollSend s with ⟨o, b⟩
  rcases o with _ | e <;> rcases b with _ | _ <;> rw [Stream.close, hp]
  · exact hemit
  · exact hemit
  · exact Or.inl ⟨rfl, rfl⟩
  · exact hemit

theorem rawError_alloc (C : Chunker) (e : Err) (s : Stream) :
    AllocShape s (Stream.rawError C e s) := by
  rcases ht : s.termSig with _ | e2 <;> rw [Stream.rawError, ht]
  · have := wireSendFlush_alloc C .rawErrorO .error (errData e) s
    rcases this with ⟨hm, hw⟩ | ⟨l, hm, hw, hl⟩
    · exact Or.inl ⟨hm, hw⟩
    · exact Or.inr ⟨l, hm, hw, hl⟩
  · exact Or.inl ⟨rfl, rfl⟩

theorem rawCancel_alloc (C : Chunker) (s : Stream) :
    AllocShape s (Stream.rawCancel C s) := by
  rcases ht : s.termSig with _ | e2 <;> rw [Stream.rawCancel, ht]
  · have := wireSendFlush_alloc C .rawCancelO .cancel [] s
    rcases this with ⟨hm, hw⟩ | ⟨l, hm, hw, hl⟩
    · exact Or.inl ⟨hm, hw⟩
    · exact Or.inr ⟨l, hm, hw, hl⟩
  · exact Or.inl ⟨rfl, rfl⟩

theorem step_alloc (C : Chunker) (s : Stream) (op : Op) :
    AllocShape s (step C s op) := by
  cases op with
  | send k d => exact rawSend_alloc C k d s
  | flush => exact Or.inl ⟨by rw [step, rawFlush_fst], by rw [step, rawFlush_fst]⟩
  | closeSendOp => exact closeSend_alloc C s
  | closeOp => exact close_alloc C s
  | errorOp e => exact rawError_alloc C e s
  | cancelOp => exact rawCancel_alloc C s
  | recvOp =>
    left
    rcases hs : s.sig with _ | e
    · rcases hq : s.queue with _ | ⟨p, rest⟩
      · cases hqc : s.queueClosed <;> simp [step, Stream.rawRecv, hs, hq, hqc]
      · simp [step, Stream.rawRecv, hs, hq]
    · simp [step, Stream.rawRecv, hs]
  | enqueueOp p =>
    left
    cases hqc : s.queueClosed <;> simp [step, hqc]
  | closeQueueOp => exact Or.inl ⟨rfl, rfl⟩

theorem run_pidinv (C : Chunker) :
    ∀ (ops : List Op) (s : Stream) (k : Nat), PidInv k s →
      k + ops.length < W → PidInv (k + ops.length) (run C s ops)
  | [], _, _, h, _ => h
  | op :: ops, s, k, h, hlt => by
    have hk1 : k + 1 < W := by
      have : (op :: ops).length = ops.length + 1 := rfl
      omega
    have h1 : PidInv (k + 1) (step C s op) :=
      pidinv_of_alloc s (step C s op) k h hk1 (step_alloc C s op)
    have h2 := run_pidinv C ops (step C s op) (k + 1) h1 (by
      have : (op :: ops).length = ops.length + 1 := rfl
      omega)
    have hlen : k + (op :: ops).length = (k + 1) + ops.length := by
      have : (op :: ops).length = ops.length + 1 := rfl
      omega
    rw [show run C s (op :: ops) = run C (step C s op) ops from rfl, hlen]
    exact h2

/-- C10: nextPid increments the counter before use and is invoked once per
RawSend, so (i) the packets of the first RawSend on a fresh stream all carry
message identifier one, (ii) every packet a RawSend emits carries the one
identifier allocated to that call, and (iii) over any history of fewer than
2^64 operations no packet handed to the writer ever carries message
identifier zero. -/
theorem c10_message_ids_start_at_one (C : Chunker) (k : PayloadKind)
    (d : List Nat) (sid : Nat) (ops : List Op) (hlen : ops.length < W) :
    (Stream.rawSend C k d (Stream.new sid)).1.wire
      = (C d).map (fun c => ⟨⟨sid, 1⟩, k, c⟩) ∧
    (∀ s : Stream, (Stream.pollSend s).1 = none →
      (Stream.rawSend C k d s).1.wire = s.wire
        ++ (C d).map (fun c => ⟨⟨s.streamID, (s.messageID + 1) % W⟩, k, c⟩)) ∧
    ((run C (Stream.new sid) ops).wire.all
      (fun p => decide (1 ≤ p.pid.messageID))) = true := by
  refine ⟨?_, ?_, ?_⟩
  · rw [rawSend_ok C k d _ (by rw [pollSend_open (Stream.new sid) rfl rfl rfl])]
    have hmod : (0 + 1) % W = 1 := Nat.mod_eq_of_lt (by decide)
    simp [Stream.new, hmod]
  · intro s hp
    rw [rawSend_ok C k d s hp]
  · have h := run_pidinv C ops (Stream.new sid) 0
      ⟨by simp [Stream.new], by simp [Stream.new]⟩ (by simpa using hlen)
    rw [List.all_eq_true]
    intro p hp
    have := (h.2 p hp).1
    simpa using this

/-- C10 witness: concrete first send and a concrete three-operation history. -/
theorem c10_message_ids_start_at_one_witness :
    (Stream.rawSend oneChunk .message [3, 4] (Stream.new 5)).1.wire
      = [⟨⟨5, 1⟩, .message, [3, 4]⟩] ∧
    (Stream.rawSend oneChunk .message [3, 4] (Stream.new 5)).1.wire
      = (Stream.new 5).wire ++ [⟨⟨5, 1⟩, .message, [3, 4]⟩] ∧
    ((run oneChunk (Stream.new 5)
        [.closeSendOp, .send .message [1], .cancelOp]).wire.all
      (fun p => decide (1 ≤ p.pid.messageID))) = true := by
  have h := c10_message_ids_start_at_one oneChunk .message [3, 4] 5
    [.closeSendOp, .send .message [1], .cancelOp] (by decide)
  refine ⟨by simpa [oneChunk] using h.1, ?_, h.2.2⟩
  have h2 := h.2.1 (Stream.new 5) (by decide)
  simpa [oneChunk, Stream.new] using h2

/-!
The shape of a run of successful RawSend calls, for claim C2.
-/

theorem runSends_ok (C : Chunker) :
    ∀ (ds : List (PayloadKind × List Nat)) (s : Stream), s.sig = none →
      s.termSig = none → s.sendSig = none →
      (runSends C s ds).2 = true ∧
      (runSends C s ds).1.wire
        = s.wire ++ expectedWire C s.streamID s.messageID ds ∧
      (runSends C s ds).1.frames
        = s.frames ++ expectedFrames s.streamID s.messageID ds := by
  intro ds
  induction ds with
  | nil =>
    intro s h1 h2 h3
    exact ⟨rfl, by simp [runSends, expectedWire], by simp [runSends, expectedFrames]⟩
  | cons kd rest ih =>
    intro s h1 h2 h3
    rcases kd with ⟨k, d⟩
    have hok := rawSend_ok C k d s (by rw [pollSend_open s h1 h2 h3])
    rw [runSends, hok]
    obtain ⟨ha, hb, hc⟩ := ih
      { s with
        messageID := (s.messageID + 1) % W
        wire := s.wire
          ++ (C d).map (fun c => ⟨⟨s.streamID, (s.messageID + 1) % W⟩, k, c⟩)
        frames := s.frames
          ++ [⟨⟨s.streamID, (s.messageID + 1) % W⟩, k, .rawSendO⟩] }
      h1 h2 h3
    refine ⟨ha, ?_, ?_⟩
    · rw [hb, expectedWire]
      simp [List.append_assoc]
    · rw [hc, expectedFrames]
      simp [List.append_assoc]

theorem expectedFrames_ids (sid : Nat) :
    ∀ (ds : List (PayloadKind × List Nat)) (m : Nat), m + ds.length < W →
      (expectedFrames sid m ds).map (fun f => f.pid.messageID)
        = (List.range ds.length).map (fun i => m + i + 1) := by
  intro ds
  induction ds with
  | nil => intro m h; simp [expectedFrames]
  | cons kd rest ih =>
    intro m h
    rcases kd with ⟨k, d⟩
    have hlen : ((k, d) :: rest).length = rest.length + 1 := rfl
    have hmod : (m + 1) % W = m + 1 := Nat.mod_eq_of_lt (by rw [hlen] at h; omega)
    rw [expectedFrames]
    simp only [List.map_cons, hmod]
    rw [ih (m + 1) (by rw [hlen] at h; omega)]
    rw [hlen, List.range_succ_eq_map]
    simp only [List.map_cons, List.map_map]
    have hhead : m + 0 + 1 = m + 1 := by omega
    rw [hhead]
    have htail : List.map ((fun i => m + i + 1) ∘ Nat.succ) (List.range rest.length)
        = List.map (fun i => m + 1 + i + 1) (List.range rest.length) :=
      List.map_congr_left (fun a _ => by simp [Function.comp]; omega)
    rw [htail]

theorem expectedWire_lb (C : Chunker) (sid : Nat) :
    ∀ (ds : List (PayloadKind × List Nat)) (m : Nat), m + ds.length < W →
      ∀ p ∈ expectedWire C sid m ds, m + 1 ≤ p.pid.messageID := by
  intro ds
  induction ds with
  | nil => intro m h p hp; simp [expectedWire] at hp
  | cons kd rest ih =>
    intro m h p hp
    rcases kd with ⟨k, d⟩
    have hlen : ((k, d) :: rest).length = rest.length + 1 := rfl
    have hmod : (m + 1) % W = m + 1 := Nat.mod_eq_of_lt (by rw [hlen] at h; omega)
    rw [expectedWire] at hp
    rcases List.mem_append.mp hp with hpa | hpb
    · obtain ⟨c, _, hc⟩ := List.mem_map.mp hpa
      rw [← hc]
      show m + 1 ≤ (m + 1) % W
      omega
    · have := ih (m + 1) (by rw [hlen] at h; omega) p (by rwa [hmod] at hpb)
      omega

theorem chain_le_const (l : List (List Nat)) (c : Nat) :
    List.Chain' (fun a b : Nat => a ≤ b) (l.map (fun _ => c)) := by
  induction l with
  | nil => simp
  | cons a t ih =>
    cases t with
    | nil => simp
    | cons b t2 =>
      simp only [List.map_cons] at ih ⊢
      exact List.chain'_cons.mpr ⟨le_refl c, ih⟩

theorem expectedWire_chain (C : Chunker) (sid : Nat) :
    ∀ (ds : List (PayloadKind × List Nat)) (m : Nat), m + ds.length < W →
      List.Chain' (fun a b : Nat => a ≤ b)
        ((expectedWire C sid m ds).map (fun p => p.pid.messageID)) := by
  intro ds
  induction ds with
  | nil => intro m h; simp [expectedWire]
  | cons kd rest ih =>
    intro m h
    rcases kd with ⟨k, d⟩
    have hlen : ((k, d) :: rest).length = rest.length + 1 := rfl
    have hmod : (m + 1) % W = m + 1 := Nat.mod_eq_of_lt (by rw [hlen] at h; omega)
    rw [expectedWire, hmod, List.map_append]
    apply List.chain'_append.mpr
    refine ⟨?_, ih (m + 1) (by rw [hlen] at h; omega), ?_⟩
    · rw [List.map_map]
      exact chain_le_const (C d) (m + 1)
    · intro x hx y hy
      have hxl : x ∈ ((C d).map
          (fun c => (⟨⟨sid, m + 1⟩, k, c⟩ : Packet))).map
            (fun p => p.pid.messageID) :=
        List.mem_of_getLast?_eq_some hx
      have hyl : y ∈ ((expectedWire C sid (m + 1) rest).map
          (fun p => p.pid.messageID)) :=
        List.mem_of_mem_head? hy
      have hxv : x = m + 1 := by
        rw [List.map_map] at hxl
        obtain ⟨c, _, hc⟩ := List.mem_map.mp hxl
        exact hc.symm
      obtain ⟨p, hpmem, hpv⟩ := List.mem_map.mp hyl
      have := expectedWire_lb C sid rest (m + 1)
        (by rw [hlen] at h; omega) p hpmem
      omega

/-- C2 amended: for every list of RawSend calls on a fresh stream (fewer than
2^64 of them), every call succeeds and is allocated one fresh packet
identifier; the identifiers of successive calls are exactly 1, 2, 3, ... -
strictly increasing with no duplicates - while the writer-observed per-packet
identifier sequence is non-decreasing, since all packets of one call share
that call's identifier. -/
theorem c2_send_ids_increasing (C : Chunker) (sid : Nat)
    (ds : List (PayloadKind × List Nat)) (hlen : ds.length < W) :
    (runSends C (Stream.new sid) ds).2 = true ∧
    (runSends C (Stream.new sid) ds).1.wire = expectedWire C sid 0 ds ∧
    (runSends C (Stream.new sid) ds).1.frames.map (fun f => f.pid.messageID)
      = (List.range ds.length).map (fun i => i + 1) ∧
    List.Pairwise (fun a b : Nat => a < b)
      ((runSends C (Stream.new sid) ds).1.frames.map
        (fun f => f.pid.messageID)) ∧
    List.Chain' (fun a b : Nat => a ≤ b)
      ((runSends C (Stream.new sid) ds).1.wire.map
        (fun p => p.pid.messageID)) := by
  obtain ⟨ha, hb, hc⟩ := runSends_ok C ds (Stream.new sid) rfl rfl rfl
  have hb2 : (runSends C (Stream.new sid) ds).1.wire
      = expectedWire C sid 0 ds := by
    rw [hb]; simp [Stream.new]
  have hc2 : (runSends C (Stream.new sid) ds).1.frames
      = expectedFrames sid 0 ds := by
    rw [hc]; simp [Stream.new]
  have hids : (runSends C (Stream.new sid) ds).1.frames.map
      (fun f => f.pid.messageID) = (List.range ds.length).map (fun i => i + 1) := by
    rw [hc2, expectedFrames_ids sid ds 0 (by omega)]
    apply List.map_congr_left
    intro a _
    omega
  refine ⟨ha, hb2, hids, ?_, ?_⟩
  · rw [hids]
    exact (List.pairwise_lt_range ds.length).map (fun i => i + 1)
      (fun a b hab => by simpa using hab)
  · rw [hb2]
    exact expectedWire_chain C sid ds 0 (by omega)

/-- C2 amended witness: two successful sends, the second split into two
packets; per-call identifiers are [1, 2], strictly increasing, and the
writer sees the non-decreasing packet sequence [1, 2, 2]. -/
theorem c2_send_ids_increasing_witness :
    (runSends splitTwo (Stream.new 1)
      [(.message, [9]), (.message, [7, 8])]).2 = true ∧
    (runSends splitTwo (Stream.new 1)
      [(.message, [9]), (.message, [7, 8])]).1.wire
      = expectedWire splitTwo 1 0 [(.message, [9]), (.message, [7, 8])] ∧
    (runSends splitTwo (Stream.new 1)
      [(.message, [9]), (.message, [7, 8])]).1.frames.map
        (fun f => f.pid.messageID)
      = (List.range 2).map (fun i => i + 1) ∧
    List.Pairwise (fun a b : Nat => a < b)
      ((runSends splitTwo (Stream.new 1)
        [(.message, [9]), (.message, [7, 8])]).1.frames.map
          (fun f => f.pid.messageID)) ∧
    List.Chain' (fun a b : Nat => a ≤ b)
      ((runSends splitTwo (Stream.new 1)
        [(.message, [9]), (.message, [7, 8])]).1.wire.map
          (fun p => p.pid.messageID)) :=
  c2_send_ids_increasing splitTwo 1 [(.message, [9]), (.message, [7, 8])]
    (by decide)

end Drpcstream
